import Mathlib

/-!
Shallow embedding of the `rit` launcher library (`src/launcher/lib.rs`).

The library defines a trait `RitLauncher` with one operation
`launch(name, args) -> Result<(), Box<dyn Error>>` and four implementations:

* `ProcLauncher { cmd_name }` spawns `cmd_name name args...` as a child
  process and inspects its exit status;
* `LibLauncher` (the spec's StubLauncher) unconditionally returns `Ok(())`;
* `BlacklistLauncher { launcher, blacklist }` scans the blacklist and fails
  with `Blacklisted` on an exact name match, otherwise delegates;
* `FallbackLauncher { launchers }` splits off the last launcher
  (`split_last().expect(...)`, a runtime panic when the vector is empty),
  tries the earlier ones in order returning the first `Ok`, and otherwise
  returns the last launcher's result unchanged.

The operating system is modelled by an oracle `SpawnEnv` giving, for each
program and argument vector, either an exit status or an I/O error.
-/

namespace Rit

/-- Exit status of a child process, as seen through Rust's
`process::ExitStatus::code()`: `some c` is a numeric exit code, `none`
means the process was terminated by a signal. -/
structure ExitStatus where
  code : Option Int
deriving DecidableEq, Repr

/-- The kind of an I/O error returned by the OS when spawning fails,
mirroring `std::io::ErrorKind`: only `NotFound` is inspected by the code;
every other kind is opaque. -/
inductive ErrKind where
  | notFound
  | other (tag : Nat)
deriving DecidableEq, Repr

/-- An opaque I/O error from a failed spawn, mirroring `std::io::Error`:
the code only ever looks at its `kind()`. -/
structure IoError where
  kind : ErrKind
deriving DecidableEq, Repr

/-- The `LaunchFailed` error enum of `lib.rs`, plus `ioError` for the
`Err(Box::new(e))` branch of `ProcLauncher::launch` that propagates an
opaque spawn-time I/O error. -/
inductive LaunchFailed where
  | notFound (name : String)
  | blacklisted (name : String)
  | badExitCode (name : String) (status : ExitStatus)
  | ioError (e : IoError)
deriving DecidableEq, Repr

/-- Result of a `launch` call. `ok` and `err` are the two sides of the Rust
`Result`; `fatal` models a Rust panic (the `expect` in
`FallbackLauncher::launch` when the launcher vector is empty), which in Rust
unwinds past every caller. -/
inductive LaunchResult where
  | ok
  | err (e : LaunchFailed)
  | fatal (msg : String)
deriving DecidableEq, Repr

/-- `true` exactly on the `err` side of the Rust `Result` (not on a panic). -/
def LaunchResult.isErr : LaunchResult → Bool
  | .err _ => true
  | _ => false

/-- The operating system's process-creation facility:
`env prog argv` is the outcome of `process::Command::new(prog)` with the
given argument vector — an exit status on success, an I/O error when the
spawn itself fails. -/
def SpawnEnv : Type := String → List String → Except IoError ExitStatus

/-- The message of the `expect` in `FallbackLauncher::launch`. -/
def noLaunchersMsg : String := "no launchers given to FallbackLauncher"

/-- The closed set of launcher shapes in `lib.rs`:
`proc` is `ProcLauncher { cmd_name }`, `lib` is `LibLauncher`,
`blacklist` is `BlacklistLauncher { launcher, blacklist }`, and
`fallback` is `FallbackLauncher { launchers }` (the vector may be empty,
exactly as the Rust struct permits). -/
inductive Launcher where
  | proc (cmd_name : String)
  | lib
  | blacklist (launcher : Launcher) (blacklist : List String)
  | fallback (launchers : List Launcher)

/-- `ProcLauncher::launch`: spawn `cmd_name` with argv `[name] ++ args`;
exit code 0 is success, any other termination is `BadExitCode(name, status)`,
a `NotFound`-kind spawn error becomes `NotFound(name)`, and any other spawn
error is propagated opaquely. -/
def procLaunch (env : SpawnEnv) (cmd_name name : String) (args : List String) :
    LaunchResult :=
  match env cmd_name (name :: args) with
  | .ok status =>
    if status.code = some 0 then .ok
    else .err (.badExitCode name status)
  | .error e =>
    if e.kind = .notFound then .err (.notFound name)
    else .err (.ioError e)

mutual

/-- `RitLauncher::launch` for each implementation in `lib.rs`. -/
def launch (env : SpawnEnv) (l : Launcher) (name : String)
    (args : List String) : LaunchResult :=
  match l with
  | .proc cmd_name => procLaunch env cmd_name name args
  | .lib => .ok
  | .blacklist inner bl => blacklistScan env inner bl name args
  | .fallback launchers =>
    match launchers with
    | [] => .fatal noLaunchersMsg
    | first :: rest => fallbackRun env first rest name args
termination_by sizeOf l

/-- The `for forbidden_name in self.blacklist.iter()` loop of
`BlacklistLauncher::launch`: on the first exact match return
`Blacklisted(forbidden_name)`, otherwise delegate to the wrapped launcher. -/
def blacklistScan (env : SpawnEnv) (inner : Launcher) (bl : List String)
    (name : String) (args : List String) : LaunchResult :=
  match bl with
  | [] => launch env inner name args
  | forbidden :: rest =>
    if name = forbidden then .err (.blacklisted forbidden)
    else blacklistScan env inner rest name args
termination_by sizeOf inner + sizeOf bl

/-- The body of `FallbackLauncher::launch` after the non-empty split:
`cur :: rest` is the launcher vector still to process; when `rest` is empty,
`cur` is the `last` of `split_last` and its result is returned unchanged;
otherwise `cur` is one of the `firsts`, whose `Ok` short-circuits and whose
`Err` is discarded. A panic inside any sub-launcher unwinds. -/
def fallbackRun (env : SpawnEnv) (cur : Launcher) (rest : List Launcher)
    (name : String) (args : List String) : LaunchResult :=
  match rest with
  | [] => launch env cur name args
  | next :: rest' =>
    match launch env cur name args with
    | .ok => .ok
    | .fatal msg => .fatal msg
    | .err _ => fallbackRun env next rest' name args
termination_by sizeOf cur + sizeOf rest

end

/-- `get_default_launcher` of `lib.rs`: a fallback chain of the
blacklist-wrapped git process launcher followed by the library stub. -/
def get_default_launcher : Launcher :=
  .fallback [.blacklist (.proc "git") ["help"], .lib]

/-- A concrete environment in which every spawn fails with a
`NotFound`-kind I/O error: a system with no binaries at all. -/
def noBinEnv : SpawnEnv := fun _ _ => .error ⟨.notFound⟩

/-- An environment where every spawn succeeds with exit code 0
(a system where the base binary exists and always succeeds). -/
def okEnv : SpawnEnv := fun _ _ => .ok ⟨some 0⟩

/-- An environment where every spawned process exits with code 1. -/
def badEnv : SpawnEnv := fun _ _ => .ok ⟨some 1⟩

/-- An environment where every spawn fails with a non-`NotFound` I/O error
(e.g. a permission failure). -/
def permEnv : SpawnEnv := fun _ _ => .error ⟨.other 13⟩

/-- A `LaunchResult` with `isErr = true` is an `err`. -/
theorem isErr_exists {r : LaunchResult} (h : r.isErr = true) :
    ∃ e, r = .err e := by
  cases r with
  | ok => simp [LaunchResult.isErr] at h
  | err e => exact ⟨e, rfl⟩
  | fatal m => simp [LaunchResult.isErr] at h

/-- The blacklist loop on a list containing `name` stops at the first match
and reports that entry, which equals `name`. -/
theorem blacklistScan_mem (env : SpawnEnv) (inner : Launcher) (bl : List String)
    (name : String) (args : List String) (h : name ∈ bl) :
    blacklistScan env inner bl name args = .err (.blacklisted name) := by
  induction bl with
  | nil => cases h
  | cons f rest ih =>
    by_cases hf : name = f
    · subst hf
      simp [blacklistScan]
    · simp only [blacklistScan, if_neg hf]
      refine ih ?_
      rcases List.mem_cons.mp h with h1 | h2
      · exact absurd h1 hf
      · exact h2

/-- The blacklist loop on a list not containing `name` falls through to the
wrapped launcher. -/
theorem blacklistScan_not_mem (env : SpawnEnv) (inner : Launcher)
    (bl : List String) (name : String) (args : List String) (h : name ∉ bl) :
    blacklistScan env inner bl name args = launch env inner name args := by
  induction bl with
  | nil => simp [blacklistScan]
  | cons f rest ih =>
    have hf : name ≠ f := fun he => h (he ▸ List.mem_cons_self f rest)
    simp only [blacklistScan, if_neg hf]
    exact ih (fun hm => h (List.mem_cons_of_mem f hm))

/-- When the current launcher and every later non-last launcher fail, the
fallback loop reaches the last launcher and returns its result unchanged. -/
theorem fallbackRun_all_err (env : SpawnEnv) (name : String)
    (args : List String) (last : Launcher) :
    ∀ (firsts : List Launcher) (cur : Launcher),
      (∀ l ∈ cur :: firsts, (launch env l name args).isErr = true) →
      fallbackRun env cur (firsts ++ [last]) name args =
        launch env last name args := by
  intro firsts
  induction firsts with
  | nil =>
    intro cur h
    obtain ⟨e, he⟩ := isErr_exists (h cur (List.mem_cons_self cur []))
    simp [fallbackRun, he]
  | cons f fs ih =>
    intro cur h
    obtain ⟨e, he⟩ := isErr_exists (h cur (List.mem_cons_self cur (f :: fs)))
    simp only [List.cons_append, fallbackRun, he]
    exact ih f (fun l hl => h l (List.mem_cons_of_mem cur hl))

/-- A launcher that succeeds makes the fallback loop return `ok` whether it
sits in the middle (non-empty suffix) or at the end of the chain. -/
theorem fallbackRun_self_ok (env : SpawnEnv) (name : String)
    (args : List String) (mid : Launcher)
    (hmid : launch env mid name args = .ok) :
    ∀ suffix : List Launcher, fallbackRun env mid suffix name args = .ok := by
  intro suffix
  cases suffix with
  | nil => simp [fallbackRun, hmid]
  | cons s ss => simp [fallbackRun, hmid]

/-- When every launcher strictly before a succeeding launcher fails, the
fallback loop returns `ok`. -/
theorem fallbackRun_reach_ok (env : SpawnEnv) (name : String)
    (args : List String) (mid : Launcher)
    (hmid : launch env mid name args = .ok) (suffix : List Launcher) :
    ∀ (pre : List Launcher) (cur : Launcher),
      (∀ l ∈ cur :: pre, (launch env l name args).isErr = true) →
      fallbackRun env cur (pre ++ mid :: suffix) name args = .ok := by
  intro pre
  induction pre with
  | nil =>
    intro cur h
    obtain ⟨e, he⟩ := isErr_exists (h cur (List.mem_cons_self cur []))
    simp only [List.nil_append, fallbackRun, he]
    exact fallbackRun_self_ok env name args mid hmid suffix
  | cons f fs ih =>
    intro cur h
    obtain ⟨e, he⟩ := isErr_exists (h cur (List.mem_cons_self cur (f :: fs)))
    simp only [List.cons_append, fallbackRun, he]
    exact ih f (fun l hl => h l (List.mem_cons_of_mem cur hl))

/-- C1: `FallbackLauncher::launch` on a non-empty chain `firsts ++ [last]`
tries the firsts in order — if all of them fail it returns the last
launcher's exact result (so when everything fails the surfaced error is the
last launcher's, the earlier errors being discarded) — and the first
success among the firsts makes the whole chain return `Ok` immediately. -/
theorem fallback_chain_semantics (env : SpawnEnv) (firsts : List Launcher)
    (last : Launcher) (name : String) (args : List String) :
    ((∀ l ∈ firsts, (launch env l name args).isErr = true) →
      launch env (.fallback (firsts ++ [last])) name args =
        launch env last name args) ∧
    (∀ pre mid post, firsts = pre ++ mid :: post →
      (∀ l ∈ pre, (launch env l name args).isErr = true) →
      launch env mid name args = .ok →
      launch env (.fallback (firsts ++ [last])) name args = .ok) := by
  constructor
  · intro h
    cases firsts with
    | nil => simp [launch, fallbackRun]
    | cons f fs =>
      have hunf : launch env (.fallback ((f :: fs) ++ [last])) name args =
          fallbackRun env f (fs ++ [last]) name args := by
        simp [launch]
      rw [hunf]
      exact fallbackRun_all_err env name args last fs f h
  · intro pre mid post hsplit hpre hmid
    subst hsplit
    cases pre with
    | nil =>
      have hunf : launch env (.fallback (([] ++ mid :: post) ++ [last]))
          name args = fallbackRun env mid (post ++ [last]) name args := by
        simp [launch]
      rw [hunf]
      exact fallbackRun_self_ok env name args mid hmid (post ++ [last])
    | cons p ps =>
      have hunf : launch env (.fallback (((p :: ps) ++ mid :: post) ++ [last]))
          name args =
          fallbackRun env p (ps ++ mid :: (post ++ [last])) name args := by
        simp [launch]
      rw [hunf]
      exact fallbackRun_reach_ok env name args mid hmid (post ++ [last]) ps p hpre

/-- Witness for C1: on a system with no binaries, a chain of the git process
launcher then the stub returns the stub's (last) result, and a chain whose
first element is the always-succeeding stub returns `ok` immediately. -/
theorem fallback_chain_semantics_witness :
    launch noBinEnv (.fallback ([.proc "git"] ++ [.lib])) "status" [] =
      launch noBinEnv .lib "status" [] ∧
    launch noBinEnv (.fallback ([.lib] ++ [.proc "git"])) "status" [] = .ok :=
  ⟨(fallback_chain_semantics noBinEnv [.proc "git"] .lib "status" []).1
      (by simp [launch, procLaunch, noBinEnv, LaunchResult.isErr]),
   (fallback_chain_semantics noBinEnv [.lib] (.proc "git") "status" []).2
      [] .lib [] rfl (by simp) (by simp [launch])⟩

/-- C2: when `name` is in the blacklist, `BlacklistLauncher::launch` returns
`Blacklisted(name)` no matter what the wrapped launcher is — the conclusion
holds for every `inner`, so the wrapped launcher is never consulted. -/
theorem blacklisted_short_circuits (env : SpawnEnv) (inner : Launcher)
    (bl : List String) (name : String) (args : List String) (h : name ∈ bl) :
    launch env (.blacklist inner bl) name args = .err (.blacklisted name) := by
  simp only [launch]
  exact blacklistScan_mem env inner bl name args h

/-- Witness for C2: launching the blacklisted name "help" through the default
blacklist wrapper fails with `Blacklisted("help")`. -/
theorem blacklisted_short_circuits_witness :
    launch noBinEnv (.blacklist (.proc "git") ["help"]) "help" [] =
      .err (.blacklisted "help") :=
  blacklisted_short_circuits noBinEnv (.proc "git") ["help"] "help" []
    (by simp)

/-- C3: when `name` is not in the blacklist, `BlacklistLauncher::launch`
returns exactly the wrapped launcher's result, `Ok` or error alike. -/
theorem blacklist_pass_through (env : SpawnEnv) (inner : Launcher)
    (bl : List String) (name : String) (args : List String) (h : name ∉ bl) :
    launch env (.blacklist inner bl) name args = launch env inner name args := by
  simp only [launch]
  exact blacklistScan_not_mem env inner bl name args h

/-- Witness for C3: "status" is not blacklisted, so the wrapper returns the
wrapped process launcher's own result. -/
theorem blacklist_pass_through_witness :
    launch noBinEnv (.blacklist (.proc "git") ["help"]) "status" [] =
      launch noBinEnv (.proc "git") "status" [] :=
  blacklist_pass_through noBinEnv (.proc "git") ["help"] "status" []
    (by simp)

/-- C4 counterexample: a `FallbackLauncher` with an empty launcher vector is
constructible (the struct does not reject it), and calling `launch` on it is
a runtime panic (the `expect` on `split_last`), contradicting the claim that
the empty chain is rejected at construction time with no runtime panic. -/
theorem fallback_empty_not_rejected_cex :
    launch noBinEnv (.fallback []) "whatever" [] = .fatal noLaunchersMsg := by
  simp [launch]

/-- C4 (amended): constructing a `FallbackLauncher` with zero launchers is
silently accepted; the violation surfaces only when `launch` is called,
as a runtime panic with message "no launchers given to FallbackLauncher". -/
theorem fallback_empty_fatal_at_launch (env : SpawnEnv) (name : String)
    (args : List String) :
    launch env (.fallback []) name args = .fatal noLaunchersMsg := by
  simp [launch]

/-- C5: `ProcLauncher::launch` classifies the spawn outcome: exit code 0 is
`Ok`; any other termination (non-zero code or signal) is
`BadExitCode(name, status)`; a `NotFound`-kind spawn error is
`NotFound(name)`; any other spawn error is propagated as the opaque
I/O error. -/
theorem proc_launch_cases (env : SpawnEnv) (cmd name : String)
    (args : List String) :
    (∀ status, env cmd (name :: args) = .ok status →
      ((status.code = some 0 → launch env (.proc cmd) name args = .ok) ∧
       (status.code ≠ some 0 →
         launch env (.proc cmd) name args =
           .err (.badExitCode name status)))) ∧
    (∀ e, env cmd (name :: args) = .error e →
      ((e.kind = .notFound →
         launch env (.proc cmd) name args = .err (.notFound name)) ∧
       (e.kind ≠ .notFound →
         launch env (.proc cmd) name args = .err (.ioError e)))) := by
  refine ⟨fun status hs => ⟨fun hc => ?_, fun hc => ?_⟩,
    fun e he => ⟨fun hk => ?_, fun hk => ?_⟩⟩
  · simp [launch, procLaunch, hs, hc]
  · simp [launch, procLaunch, hs, hc]
  · simp [launch, procLaunch, he, hk]
  · simp [launch, procLaunch, he, hk]

/-- Witness for C5: all four outcomes at concrete environments — exit code 0,
exit code 1, a missing binary, and a permission-style spawn failure. -/
theorem proc_launch_cases_witness :
    launch okEnv (.proc "git") "status" [] = .ok ∧
    launch badEnv (.proc "git") "status" [] =
      .err (.badExitCode "status" ⟨some 1⟩) ∧
    launch noBinEnv (.proc "git") "status" [] = .err (.notFound "status") ∧
    launch permEnv (.proc "git") "status" [] = .err (.ioError ⟨.other 13⟩) :=
  ⟨((proc_launch_cases okEnv "git" "status" []).1 ⟨some 0⟩ rfl).1 rfl,
   ((proc_launch_cases badEnv "git" "status" []).1 ⟨some 1⟩ rfl).2 (by decide),
   ((proc_launch_cases noBinEnv "git" "status" []).2 ⟨.notFound⟩ rfl).1 rfl,
   ((proc_launch_cases permEnv "git" "status" []).2 ⟨.other 13⟩ rfl).2
     (by decide)⟩

/-- C6: `LibLauncher::launch` (the spec's StubLauncher) unconditionally
returns `Ok` for every environment, name and argument list. -/
theorem lib_launch_always_ok (env : SpawnEnv) (name : String)
    (args : List String) :
    launch env .lib name args = .ok := by
  simp [launch]

/-- C7: the default launcher is the two-element chain
[BlacklistLauncher(ProcLauncher("git"), {"help"}), LibLauncher]; on
`launch("help", [])` the blacklist wrapper fails with `Blacklisted("help")`
for every environment (so no process is ever spawned), and the chain falls
back to the stub and returns `Ok`. -/
theorem default_chain_help (env : SpawnEnv) :
    get_default_launcher =
      .fallback [.blacklist (.proc "git") ["help"], .lib] ∧
    launch env (.blacklist (.proc "git") ["help"]) "help" [] =
      .err (.blacklisted "help") ∧
    launch env get_default_launcher "help" [] = .ok := by
  refine ⟨rfl, ?_, ?_⟩
  · simp [launch, blacklistScan]
  · simp [launch, get_default_launcher, fallbackRun, blacklistScan]

/-- C8: on the default chain, a non-blacklisted name whose spawn fails with a
`NotFound`-kind error makes the process launcher fail `NotFound(name)`, yet
the chain still returns `Ok`: the stub fallback masks the process failure. -/
theorem default_chain_masks_notfound (env : SpawnEnv) (name : String)
    (args : List String) (e : IoError) (hname : name ≠ "help")
    (hspawn : env "git" (name :: args) = .error e)
    (hkind : e.kind = .notFound) :
    launch env (.blacklist (.proc "git") ["help"]) name args =
      .err (.notFound name) ∧
    launch env get_default_launcher name args = .ok := by
  have hscan : blacklistScan env (.proc "git") ["help"] name args =
      .err (.notFound name) := by
    simp [blacklistScan, hname, launch, procLaunch, hspawn, hkind]
  constructor
  · simp only [launch]
    exact hscan
  · simp only [get_default_launcher, launch, fallbackRun, hscan]

/-- Witness for C8: on a system with no binaries, the default chain still
returns `Ok` for "not-a-real-command" while its process half fails
`NotFound`. -/
theorem default_chain_masks_notfound_witness :
    launch noBinEnv (.blacklist (.proc "git") ["help"]) "not-a-real-command"
      [] = .err (.notFound "not-a-real-command") ∧
    launch noBinEnv get_default_launcher "not-a-real-command" [] = .ok :=
  default_chain_masks_notfound noBinEnv "not-a-real-command" []
    ⟨.notFound⟩ (by decide) rfl rfl

/-- C9: a fallback chain of exactly one launcher returns exactly that
launcher's result — the singleton chain is the identity decoration. -/
theorem fallback_singleton_identity (env : SpawnEnv) (l : Launcher)
    (name : String) (args : List String) :
    launch env (.fallback [l]) name args = launch env l name args := by
  simp [launch, fallbackRun]

/-- C10: a blacklist wrapper with an empty blacklist returns exactly the
wrapped launcher's result — the empty blacklist is the identity
decoration. -/
theorem blacklist_empty_identity (env : SpawnEnv) (l : Launcher)
    (name : String) (args : List String) :
    launch env (.blacklist l []) name args = launch env l name args := by
  simp [launch, blacklistScan]

end Rit
